import Mathlib

/-!
Verification development for the `aura-api-client` Go library (package `aura`),
a client wrapping the Neo4j Aura provisioning REST API.

The embedding covers two layers of the repository:

* `Aura` — the current client in `aura/aura.go`: response decoding
  (`unmarshalResponse`, `newCreateResponse`, `newGetResponse`), the operation
  facade (`CreateInstance`, `GetInstance`, `PauseInstance`, `DestroyInstance`),
  error construction (`newAuraError`), the deprecation-warning hook (`do`)
  and client construction (`NewClient`, `WithRetries`, ...).
* `AuraO` — the earlier snapshots of the same package kept in the repository,
  which contain the hand-rolled OAuth pipeline the current version delegates
  to library code: `sign`, `authenticate` and the one-shot re-auth-on-403
  logic of `Do`.
* `RetrySpec` — the retry loop.  The loop itself lives in the external
  `go-retryablehttp` dependency (only configured by `NewClient`), so it is
  modelled from the specification's Retry Policy contract.

The HTTP transport is an external collaborator: responses (and, for the
stateful layer, the token endpoint's answers) are inputs to the model.
JSON bodies are modelled post-parse as a `Json` value; the raw octets of a
body are carried separately as text, since error rendering uses the raw text
while decoding uses the parsed value.
-/

/-- JSON values as produced by `encoding/json` decoding.  Numbers are
restricted to integers: the only numeric field the client reads is
`expires_in`, integral seconds (Go truncates the `float64` with `int(...)`). -/
inductive Json where
  | null : Json
  | bool : Bool → Json
  | num : Int → Json
  | str : String → Json
  | arr : List Json → Json
  | obj : List (String × Json) → Json

/-- Lookup in a decoded `map[string]any`.  `encoding/json` keeps the last
occurrence of a duplicated key, hence the left fold. -/
def mapGet (m : List (String × Json)) (k : String) : Option Json :=
  m.foldl (fun acc p => if p.1 = k then some p.2 else acc) none

/-- An outbound request: method, URL, header pairs (Go's `Header.Add`
appends; `Header.Get` reads the first value), and the serialized body. -/
structure HttpRequest where
  method : String
  url : String
  headers : List (String × String)
  body : String

/-- An HTTP response as seen by the client: numeric status code, status text
(Go's `resp.Status`), header pairs, the body both parsed (`none` when the
body is not valid JSON) and as raw text. -/
structure HttpResponse where
  statusCode : Nat
  status : String
  headers : List (String × String)
  bodyJson : Option Json
  bodyText : String

/-- `http.Header.Get`: first value stored under the key, `""` if absent. -/
def headerGet (hs : List (String × String)) (k : String) : String :=
  match hs.find? (fun p => p.1 == k) with
  | some p => p.2
  | none => ""

/-- All values stored under a header key, in insertion order. -/
def headerValues (hs : List (String × String)) (k : String) : List String :=
  (hs.filter (fun p => p.1 == k)).map (fun p => p.2)

/-- `http.Header.Add`: appends a value for the key. -/
def addHeader (req : HttpRequest) (k v : String) : HttpRequest :=
  { req with headers := req.headers ++ [(k, v)] }

/-- The Go type assertion `m[k].(string)`: succeeds exactly when the key is
present with a string value; otherwise the given error message is returned. -/
def requireString (m : List (String × Json)) (k msg : String) : Except String String :=
  match mapGet m k with
  | some (Json.str s) => Except.ok s
  | _ => Except.error msg

/-- `CreateResponse` of `aura/aura.go` (identical in the snapshots). -/
structure CreateResponse where
  ID : String
  ConnectionURL : String
  Username : String
  Password : String
  Name : String
  TenantID : String
  CloudProvider : String
  Region : String
  InstanceType : String

/-- `GetResponse` of `aura/aura.go` (identical in the snapshots). -/
structure GetResponse where
  ID : String
  Name : String
  Status : String
  TenantID : String
  CloudProvider : String
  ConnectionURL : String
  Region : String
  InstanceType : String
  Memory : String
  Storage : String

/-- The field checks of `newCreateResponse`, in source order. -/
def decodeCreateFields (m : List (String × Json)) : Except String CreateResponse := do
  let id ← requireString m "id" "response missing key \"id\" or value not string"
  let curl ← requireString m "connection_url" "response missing key \"connection_url\" or value not string"
  let user ← requireString m "username" "response missing key \"username\" or value not string"
  let pw ← requireString m "password" "response missing key \"password\" or value not string"
  let nm ← requireString m "name" "response missing key \"name\" or value not string"
  let tid ← requireString m "tenant_id" "response missing key \"tenant_id\" or value not string"
  let cp ← requireString m "cloud_provider" "response missing key \"cloud_provider\" or value not string"
  let rg ← requireString m "region" "response missing key \"region\" or value not string"
  let ty ← requireString m "type" "response missing key \"type\" or value not string"
  pure ⟨id, curl, user, pw, nm, tid, cp, rg, ty⟩

/-- The field checks of `newGetResponse`, in source order. -/
def decodeGetFields (m : List (String × Json)) : Except String GetResponse := do
  let id ← requireString m "id" "response missing key \"id\" or value not string"
  let curl ← requireString m "connection_url" "response missing key \"connection_url\" or value not string"
  let nm ← requireString m "name" "response missing key \"name\" or value not string"
  let tid ← requireString m "tenant_id" "response missing key \"tenant_id\" or value not string"
  let cp ← requireString m "cloud_provider" "response missing key \"cloud_provider\" or value not string"
  let rg ← requireString m "region" "response missing key \"region\" or value not string"
  let ty ← requireString m "type" "response missing key \"type\" or value not string"
  let st ← requireString m "status" "response missing key \"status\" or value not string"
  let mem ← requireString m "memory" "response missing key \"memory\" or value not string"
  let sto ← requireString m "storage" "response missing key \"storage\" or value not string"
  pure ⟨id, nm, st, tid, cp, curl, rg, ty, mem, sto⟩

namespace Aura

/-- `responseBodyToMap` of `aura/aura.go`: `json.Decoder.Decode` into a
`map[string]any`.  A JSON object yields its entries; JSON `null` leaves the
map nil (empty); any other body — including a non-JSON or empty body — is a
decode error. -/
def responseBodyToMap (r : HttpResponse) : Except String (List (String × Json)) :=
  match r.bodyJson with
  | some (Json.obj m) => Except.ok m
  | some Json.null => Except.ok []
  | _ => Except.error "json decode: body is not an object"

/-- `unmarshalResponse` of `aura/aura.go`: decode the body and project the
`data` envelope key. -/
def unmarshalResponse (r : HttpResponse) : Except String Json :=
  match responseBodyToMap r with
  | Except.error e => Except.error e
  | Except.ok m =>
    match mapGet m "data" with
    | some d => Except.ok d
    | none => Except.error "expected response to contain key \"data\"."

/-- `newCreateResponse` of `aura/aura.go`. -/
def newCreateResponse (r : HttpResponse) : Except String CreateResponse :=
  match unmarshalResponse r with
  | Except.error e => Except.error e
  | Except.ok (Json.obj m) => decodeCreateFields m
  | Except.ok _ => Except.error "expected response to be a map with string keys"

/-- `newGetResponse` of `aura/aura.go`. -/
def newGetResponse (r : HttpResponse) : Except String GetResponse :=
  match unmarshalResponse r with
  | Except.error e => Except.error e
  | Except.ok (Json.obj m) => decodeGetFields m
  | Except.ok _ => Except.error "expected response to be a map with string keys"

/-- `AuraError` of `aura/aura.go`.  The Go value keeps the `*http.Response`
and renders its body lazily in `Error()`; the model keeps the pieces the
rendering uses: the `X-Request-Id` header value, the wrapped error message
and the raw body text. -/
structure AuraError where
  requestID : String
  errMsg : String
  responseBody : String

/-- `newAuraError` of `aura/aura.go`: requestID is the `X-Request-Id` header
value of the response (empty when absent). -/
def newAuraError (msg : String) (r : HttpResponse) : AuraError :=
  ⟨headerGet r.headers "X-Request-Id", msg, r.bodyText⟩

/-- The `Error()` rendering of `AuraError`. -/
def AuraError.render (e : AuraError) : String :=
  "Aura API error: " ++ e.errMsg ++ "\nAura request ID: " ++ e.requestID ++
    "\nResponse body: " ++ e.responseBody

/-- `GetInstance` of `aura/aura.go`, from the point where the transport has
produced a response.  Mirrors the Go pair returns: `(nil, err)` on the
non-2xx and decode-error paths, `(resp, nil)` on success. -/
def GetInstance (r : HttpResponse) : Option GetResponse × Option AuraError :=
  if r.statusCode < 200 ∨ 300 ≤ r.statusCode then
    (none, some (newAuraError r.status r))
  else
    match newGetResponse r with
    | Except.error e => (none, some (newAuraError e r))
    | Except.ok g => (some g, none)

/-- `CreateInstance` of `aura/aura.go`, from the response on. -/
def CreateInstance (r : HttpResponse) : Option CreateResponse × Option AuraError :=
  if r.statusCode < 200 ∨ 300 ≤ r.statusCode then
    (none, some (newAuraError r.status r))
  else
    match newCreateResponse r with
    | Except.error e => (none, some (newAuraError e r))
    | Except.ok cr => (some cr, none)

/-- `DestroyInstance` of `aura/aura.go`, from the response on: success is
404 or any 2xx, anything else is an `AuraError` carrying the status text. -/
def DestroyInstance (r : HttpResponse) : Option AuraError :=
  if r.statusCode = 404 ∨ (200 ≤ r.statusCode ∧ r.statusCode < 300) then
    none
  else
    some (newAuraError r.status r)

/-- `PauseInstance` of `aura/aura.go`, from the response on. -/
def PauseInstance (r : HttpResponse) : Option AuraError :=
  if 200 ≤ r.statusCode ∧ r.statusCode < 300 then
    none
  else
    some (newAuraError r.status r)

/-- `(*client).do` of `aura/aura.go` (named `doCall` here, `do` being
reserved): returns the transport's response unchanged and, when the
`X-Tyk-Api-Expires` header is present, the deprecation warning emitted to
the logging sink. -/
def doCall (version : String) (req : HttpRequest) (resp : HttpResponse) :
    HttpResponse × List String :=
  let dep := headerGet resp.headers "X-Tyk-Api-Expires"
  if dep ≠ "" then
    (resp, [version ++ " of the Neo4J Aura API expires on " ++ dep ++
      ".\nEncountered at " ++ req.url])
  else
    (resp, [])

/-- The configurable part of `client` in `aura/aura.go`. -/
structure ClientCfg where
  endpoint : String
  tenantID : String
  retries : Int
  version : String

/-- `NewClient` of `aura/aura.go`: defaults (`endpoint`, `retries = 0`,
`version = "v1"`) then the option functions applied in order.  The
retryable transport and oauth2 wiring are external collaborators. -/
def NewClient (tenantID : String) (options : List (ClientCfg → ClientCfg)) : ClientCfg :=
  options.foldl (fun c o => o c) ⟨"https://api.neo4j.io", tenantID, 0, "v1"⟩

/-- `WithRetries` of `aura/aura.go`. -/
def WithRetries (n : Int) : ClientCfg → ClientCfg :=
  fun c => { c with retries := n }

/-- `WithEndpoint` of `aura/aura.go`. -/
def WithEndpoint (e : String) : ClientCfg → ClientCfg :=
  fun c => { c with endpoint := e }

/-- `WithVersion` of `aura/aura.go`. -/
def WithVersion (v : String) : ClientCfg → ClientCfg :=
  fun c => { c with version := v }

end Aura

namespace RetrySpec

/-- The give-up error of the Retry Policy: last response's status text and
body, and the total attempt count. -/
structure GiveUp where
  lastStatus : String
  lastBody : String
  attempts : Nat

/-- Modelled from the spec: the retryable status set of the Retry Policy
(§4.3), statuses 500, 502, 503 and 504.  The loop itself lives in the
external `go-retryablehttp` dependency, which `NewClient` only configures
(`RetryMax`), so it is not part of `src/`. -/
def retryable (code : Nat) : Bool :=
  code == 500 || code == 502 || code == 503 || code == 504

/-- Modelled from the spec: the Retry Policy's `execute(requestFactory,
maxRetries)` loop (§4.3), which is implemented by the external
`go-retryablehttp` dependency.  `resps i` is the transport's answer to the
`i`-th attempt.  A non-retryable status is returned as the response;
a retryable one consumes one unit of budget, and with the budget exhausted
the loop gives up after `maxRetries + 1` total attempts.  The second
component is the number of attempts made.  Backoff delays do not affect the
value and are not modelled. -/
def execute (resps : Nat → HttpResponse) (i : Nat) : Nat → Except GiveUp HttpResponse × Nat
  | 0 =>
    if retryable (resps i).statusCode then
      (Except.error ⟨(resps i).status, (resps i).bodyText, i + 1⟩, i + 1)
    else
      (Except.ok (resps i), i + 1)
  | b + 1 =>
    if retryable (resps i).statusCode then
      execute resps (i + 1) b
    else
      (Except.ok (resps i), i + 1)

end RetrySpec

namespace AuraO

/-- The client state of the snapshot versions (`src/unnamed/part_000`):
token cache plus immutable credentials and endpoint.  Time is modelled as
integral seconds; `time.Now().After(t)` is strict `<`. -/
structure ClientState where
  endpoint : String
  accessToken : String
  tokenExpiresAt : Int
  clientSecret : String
  clientID : String
  tenantID : String

/-- `NewClient` of the snapshot: empty token, expiry initialised to the
construction instant, then the option functions applied in order. -/
def NewClient (now : Int) (clientID clientSecret tenantID : String)
    (options : List (ClientState → ClientState)) : ClientState :=
  options.foldl (fun c o => o c)
    ⟨"https://api.neo4j.io", "", now, clientSecret, clientID, tenantID⟩

/-- `WithEndpoint` of the snapshot. -/
def WithEndpoint (e : String) : ClientState → ClientState :=
  fun c => { c with endpoint := e }

/-- Modelled from the spec: the pre-seeded token construction option
("pre-seeded token + expiry (bypasses first auth round-trip)", §6
Construction).  The snapshot test file calls it `WithAuthInfo(token,
expiry)` but its definition is absent from `src/`. -/
def WithAuthInfo (token : String) (expiry : Int) : ClientState → ClientState :=
  fun c => { c with accessToken := token, tokenExpiresAt := expiry }

/-- `responseBodyToMap` of the snapshot: an empty body is accepted and
leaves the map nil (empty); otherwise the body is JSON-decoded into a
`map[string]any` as in the current version. -/
def responseBodyToMap (r : HttpResponse) : Except String (List (String × Json)) :=
  if r.bodyText = "" then Except.ok []
  else
    match r.bodyJson with
    | some (Json.obj m) => Except.ok m
    | some Json.null => Except.ok []
    | _ => Except.error "json decode: body is not an object"

/-- `authenticate` of the snapshot, from the token endpoint's response on
(the request construction — POST `/oauth/token`, client-credentials form
body, HTTP Basic auth — is carried out against the external transport).
On a 2xx response carrying `access_token` (string) and `expires_in`
(number), the token is stored and expiry set to `now + expires_in`;
any failure leaves the state unchanged. -/
def authenticate (c : ClientState) (now : Int) (resp : HttpResponse) :
    Except String ClientState :=
  if resp.statusCode < 200 ∨ 300 ≤ resp.statusCode then
    Except.error ("authentication failed with status code: " ++ toString resp.statusCode)
  else
    match responseBodyToMap resp with
    | Except.error e => Except.error e
    | Except.ok m =>
      match mapGet m "access_token" with
      | some (Json.str tok) =>
        match mapGet m "expires_in" with
        | some (Json.num n) =>
          Except.ok { c with accessToken := tok, tokenExpiresAt := now + n }
        | _ => Except.error "auth response missing expires_in key or value not numerical"
      | _ => Except.error "auth response missing access_token key or value not string"

/-- `sign` of the snapshot: authenticate when no token is held or the
current instant is strictly after the stored expiry, then append the bearer
header (`Header.Add`).  The `Nat` component counts token-endpoint
invocations (0 or 1).  `authResp` is the token endpoint's answer, consulted
only when authentication happens. -/
def sign (c : ClientState) (now : Int) (authResp : HttpResponse) (req : HttpRequest) :
    Except String (ClientState × HttpRequest) × Nat :=
  if c.accessToken = "" ∨ c.tokenExpiresAt < now then
    match authenticate c now authResp with
    | Except.error e => (Except.error e, 1)
    | Except.ok c1 =>
      (Except.ok (c1, addHeader req "Authorization" ("Bearer " ++ c1.accessToken)), 1)
  else
    (Except.ok (c, addHeader req "Authorization" ("Bearer " ++ c.accessToken)), 0)

/-- Observable trace of one `Do` call: resulting client state, result,
number of token-endpoint invocations, and the requests handed to the
transport in order. -/
structure DoTrace where
  state : ClientState
  result : Except String HttpResponse
  authCalls : Nat
  sent : List HttpRequest

/-- `Do` of the snapshot.  The transport is an oracle: `resp1` answers the
first send and `resp2` the retried send; `authA`/`authB` answer the token
endpoint for the first/second `sign`, and `now1`/`now2` are the clock
readings at the two `sign` calls.  On a 403 first answer the cached token
is cleared, `sign` is called again on the same request object, and the
request is re-sent exactly once; any second answer is returned as is. -/
def Do (c : ClientState) (now1 : Int) (authA resp1 : HttpResponse)
    (now2 : Int) (authB resp2 : HttpResponse) (req : HttpRequest) : DoTrace :=
  match sign c now1 authA req with
  | (Except.error e, a1) => ⟨c, Except.error e, a1, []⟩
  | (Except.ok (c1, req1), a1) =>
    if resp1.statusCode = 403 then
      match sign { c1 with accessToken := "" } now2 authB req1 with
      | (Except.error e, a2) =>
        ⟨{ c1 with accessToken := "" }, Except.error e, a1 + a2, [req1]⟩
      | (Except.ok (c3, req2), a2) =>
        ⟨c3, Except.ok resp2, a1 + a2, [req1, req2]⟩
    else
      ⟨c1, Except.ok resp1, a1, [req1]⟩

/-- The oracle inputs of one `Do` call, for running call sequences. -/
structure DoArgs where
  now1 : Int
  authA : HttpResponse
  resp1 : HttpResponse
  now2 : Int
  authB : HttpResponse
  resp2 : HttpResponse
  req : HttpRequest

/-- A sequence of resource calls through `Do`, threading the client state
and summing the token-endpoint invocations. -/
def runSeq (c : ClientState) : List DoArgs → ClientState × Nat
  | [] => (c, 0)
  | a :: rest =>
    let t := Do c a.now1 a.authA a.resp1 a.now2 a.authB a.resp2 a.req
    let tail := runSeq t.state rest
    (tail.1, t.authCalls + tail.2)

/-- `UnmarshalResponse` of the snapshot: a non-2xx response yields the Go
`(nil, nil)` pair (the `TODO add error handling` branch), modelled as the
nil interface value `Json.null`; otherwise the `data` envelope key is
projected as in the current version. -/
def UnmarshalResponse (r : HttpResponse) : Except String Json :=
  if r.statusCode < 200 ∨ 300 ≤ r.statusCode then Except.ok Json.null
  else
    match responseBodyToMap r with
    | Except.error e => Except.error e
    | Except.ok m =>
      match mapGet m "data" with
      | some d => Except.ok d
      | none => Except.error "expected response to contain key \"data\"."

/-- `NewGetResponse` of the snapshot. -/
def NewGetResponse (r : HttpResponse) : Except String GetResponse :=
  match UnmarshalResponse r with
  | Except.error e => Except.error e
  | Except.ok (Json.obj m) => decodeGetFields m
  | Except.ok _ => Except.error "expected response to be a map with string keys"

/-- `GetInstance` of the second snapshot, from the response on: a non-2xx
status becomes `errors.New(apiResp.Status)`, otherwise the response is
decoded. -/
def GetInstanceFromResp (r : HttpResponse) : Except String GetResponse :=
  if r.statusCode < 200 ∨ 300 ≤ r.statusCode then Except.error r.status
  else NewGetResponse r

end AuraO

/-! ### Helper lemmas -/

theorem exceptBind_ok {α β : Type} {x : Except String α} {f : α → Except String β} {b : β}
    (h : (x >>= f) = Except.ok b) : ∃ a, x = Except.ok a ∧ f a = Except.ok b := by
  cases x with
  | error e => simp [Bind.bind, Except.bind] at h
  | ok a => exact ⟨a, rfl, by simpa [Bind.bind, Except.bind] using h⟩

theorem requireString_ok {m : List (String × Json)} {k msg s : String}
    (h : requireString m k msg = Except.ok s) : mapGet m k = some (Json.str s) := by
  unfold requireString at h
  split at h
  · next s2 heq =>
    injection h with h2
    rw [heq, h2]
  · exact absurd h (by simp)

theorem requireString_nostr {m : List (String × Json)} {k : String} (msg : String)
    (h : ∀ s, mapGet m k ≠ some (Json.str s)) :
    requireString m k msg = Except.error msg := by
  unfold requireString
  split
  · next s2 heq => exact absurd heq (h s2)
  · rfl

theorem decodeGetFields_ok {m : List (String × Json)} {g : GetResponse}
    (h : decodeGetFields m = Except.ok g) :
    mapGet m "id" = some (Json.str g.ID) ∧
    mapGet m "connection_url" = some (Json.str g.ConnectionURL) ∧
    mapGet m "name" = some (Json.str g.Name) ∧
    mapGet m "tenant_id" = some (Json.str g.TenantID) ∧
    mapGet m "cloud_provider" = some (Json.str g.CloudProvider) ∧
    mapGet m "region" = some (Json.str g.Region) ∧
    mapGet m "type" = some (Json.str g.InstanceType) ∧
    mapGet m "status" = some (Json.str g.Status) ∧
    mapGet m "memory" = some (Json.str g.Memory) ∧
    mapGet m "storage" = some (Json.str g.Storage) := by
  unfold decodeGetFields at h
  obtain ⟨id, h1, h⟩ := exceptBind_ok h
  obtain ⟨curl, h2, h⟩ := exceptBind_ok h
  obtain ⟨nm, h3, h⟩ := exceptBind_ok h
  obtain ⟨tid, h4, h⟩ := exceptBind_ok h
  obtain ⟨cp, h5, h⟩ := exceptBind_ok h
  obtain ⟨rg, h6, h⟩ := exceptBind_ok h
  obtain ⟨ty, h7, h⟩ := exceptBind_ok h
  obtain ⟨st, h8, h⟩ := exceptBind_ok h
  obtain ⟨mem, h9, h⟩ := exceptBind_ok h
  obtain ⟨sto, h10, h⟩ := exceptBind_ok h
  have hg : g = ⟨id, nm, st, tid, cp, curl, rg, ty, mem, sto⟩ := by
    simpa [Pure.pure, Except.pure] using h.symm
  subst hg
  exact ⟨requireString_ok h1, requireString_ok h2, requireString_ok h3,
    requireString_ok h4, requireString_ok h5, requireString_ok h6,
    requireString_ok h7, requireString_ok h8, requireString_ok h9,
    requireString_ok h10⟩

theorem decodeCreateFields_ok {m : List (String × Json)} {cr : CreateResponse}
    (h : decodeCreateFields m = Except.ok cr) :
    mapGet m "id" = some (Json.str cr.ID) ∧
    mapGet m "connection_url" = some (Json.str cr.ConnectionURL) ∧
    mapGet m "username" = some (Json.str cr.Username) ∧
    mapGet m "password" = some (Json.str cr.Password) ∧
    mapGet m "name" = some (Json.str cr.Name) ∧
    mapGet m "tenant_id" = some (Json.str cr.TenantID) ∧
    mapGet m "cloud_provider" = some (Json.str cr.CloudProvider) ∧
    mapGet m "region" = some (Json.str cr.Region) ∧
    mapGet m "type" = some (Json.str cr.InstanceType) := by
  unfold decodeCreateFields at h
  obtain ⟨id, h1, h⟩ := exceptBind_ok h
  obtain ⟨curl, h2, h⟩ := exceptBind_ok h
  obtain ⟨user, h3, h⟩ := exceptBind_ok h
  obtain ⟨pw, h4, h⟩ := exceptBind_ok h
  obtain ⟨nm, h5, h⟩ := exceptBind_ok h
  obtain ⟨tid, h6, h⟩ := exceptBind_ok h
  obtain ⟨cp, h7, h⟩ := exceptBind_ok h
  obtain ⟨rg, h8, h⟩ := exceptBind_ok h
  obtain ⟨ty, h9, h⟩ := exceptBind_ok h
  have hg : cr = ⟨id, curl, user, pw, nm, tid, cp, rg, ty⟩ := by
    simpa [Pure.pure, Except.pure] using h.symm
  subst hg
  exact ⟨requireString_ok h1, requireString_ok h2, requireString_ok h3,
    requireString_ok h4, requireString_ok h5, requireString_ok h6,
    requireString_ok h7, requireString_ok h8, requireString_ok h9⟩

/-! ### C4 — idempotent destroy -/

/-- C4: `DestroyInstance` returns success (no error) exactly when the
response status is in [200, 300) or is exactly 404; for every other status
it returns the `AuraError` built from the response's status text, so
repeated calls against an already-deleted instance (404) never error. -/
theorem destroyInstance_success_iff (r : HttpResponse) :
    (Aura.DestroyInstance r = none ↔
      (200 ≤ r.statusCode ∧ r.statusCode < 300) ∨ r.statusCode = 404) ∧
    (Aura.DestroyInstance r = none ∨
      Aura.DestroyInstance r = some (Aura.newAuraError r.status r)) := by
  unfold Aura.DestroyInstance
  constructor
  · split
    · next h => simp only [true_iff]; tauto
    · next h => simp only [reduceCtorEq, false_iff]; tauto
  · split
    · exact Or.inl rfl
    · exact Or.inr rfl

/-! ### C6 — non-2xx error contents -/

/-- C6: for every response with status outside [200, 300), `GetInstance`
returns the error built by `newAuraError`: it carries the response's status
text, the `X-Request-Id` correlation header value (empty when absent) and
the raw body text; the result is independent of the parsed body, i.e. no
envelope parsing takes place; and `DestroyInstance` produces the same error
when the status is also outside its success set (not 404). -/
theorem non2xx_error_contents (r : HttpResponse) (j : Option Json)
    (h : r.statusCode < 200 ∨ 300 ≤ r.statusCode) :
    Aura.GetInstance r = (none, some (Aura.newAuraError r.status r)) ∧
    Aura.newAuraError r.status r =
      ⟨headerGet r.headers "X-Request-Id", r.status, r.bodyText⟩ ∧
    Aura.GetInstance { r with bodyJson := j } = Aura.GetInstance r ∧
    (r.statusCode ≠ 404 → Aura.DestroyInstance r = some (Aura.newAuraError r.status r)) := by
  refine ⟨?_, rfl, ?_, ?_⟩
  · unfold Aura.GetInstance
    rw [if_pos h]
  · unfold Aura.GetInstance
    rw [if_pos h, if_pos h]
    rfl
  · intro h404
    unfold Aura.DestroyInstance
    rw [if_neg]
    rintro (h4 | ⟨h5, h6⟩)
    · exact h404 h4
    · omega

/-- Witness for C6 at a concrete 500 response from the repository's tests. -/
theorem non2xx_error_contents_witness :
    Aura.GetInstance
        ⟨500, "500 Internal Server Error", [("X-Request-Id", "track-me-123")], none,
          "500 not working"⟩ =
      (none, some ⟨"track-me-123", "500 Internal Server Error", "500 not working"⟩) := by
  have h := non2xx_error_contents
    ⟨500, "500 Internal Server Error", [("X-Request-Id", "track-me-123")], none,
      "500 not working"⟩ none (by right; decide)
  rw [h.1]
  rfl

/-! ### C8 — deprecation warning is effect-free -/

/-- A response with every deprecation-notice header removed; used to state
that results do not depend on that header. -/
def stripDepHeader (r : HttpResponse) : HttpResponse :=
  { r with headers := r.headers.filter (fun p => !(p.1 == "X-Tyk-Api-Expires")) }

theorem find?_filter_ne (t : List (String × String)) (k k' : String) (hne : k' ≠ k) :
    (t.filter (fun p => !(p.1 == k))).find? (fun p => p.1 == k') =
      t.find? (fun p => p.1 == k') := by
  induction t with
  | nil => rfl
  | cons p t ih =>
    by_cases h1 : p.1 = k
    · have hk : (p.1 == k) = true := by simp [h1]
      have hk' : (p.1 == k') = false := by
        apply beq_eq_false_iff_ne.mpr
        rw [h1]
        exact fun h2 => hne h2.symm
      simp only [List.filter_cons, hk, Bool.not_true, Bool.false_eq_true, if_false]
      rw [List.find?_cons_of_neg _ (by simp [hk']), ih]
    · have hk : (p.1 == k) = false := by simp [h1]
      simp only [List.filter_cons, hk, Bool.not_false, if_true]
      by_cases h2 : p.1 = k'
      · have hk2 : (p.1 == k') = true := by simp [h2]
        simp [List.find?, hk2]
      · have hk2 : (p.1 == k') = false := by simp [h2]
        rw [List.find?_cons_of_neg _ (by simp [hk2]),
          List.find?_cons_of_neg _ (by simp [hk2]), ih]

theorem headerGet_filter_ne (hs : List (String × String)) (k k' : String) (hne : k' ≠ k) :
    headerGet (hs.filter (fun p => !(p.1 == k))) k' = headerGet hs k' := by
  unfold headerGet
  rw [find?_filter_ne hs k k' hne]

theorem newAuraError_strip (msg : String) (r : HttpResponse) :
    Aura.newAuraError msg (stripDepHeader r) = Aura.newAuraError msg r := by
  unfold Aura.newAuraError stripDepHeader
  simp only
  rw [headerGet_filter_ne r.headers "X-Tyk-Api-Expires" "X-Request-Id" (by decide)]

/-- C8: the deprecation-notice header never changes returned values: the
send step (`do`) returns the transport's response unchanged, emitting the
warning only to the logging sink, and every operation's result on a
response is the same as on that response with the deprecation header
removed. -/
theorem deprecation_warning_frame (version : String) (req : HttpRequest) (r : HttpResponse) :
    (Aura.doCall version req r).1 = r ∧
    Aura.GetInstance (stripDepHeader r) = Aura.GetInstance r ∧
    Aura.CreateInstance (stripDepHeader r) = Aura.CreateInstance r ∧
    Aura.DestroyInstance (stripDepHeader r) = Aura.DestroyInstance r ∧
    Aura.PauseInstance (stripDepHeader r) = Aura.PauseInstance r := by
  have hsc : (stripDepHeader r).statusCode = r.statusCode := rfl
  have hst : (stripDepHeader r).status = r.status := rfl
  refine ⟨?_, ?_, ?_, ?_, ?_⟩
  · unfold Aura.doCall
    by_cases h : headerGet r.headers "X-Tyk-Api-Expires" ≠ "" <;> simp [h]
  · have hng : Aura.newGetResponse (stripDepHeader r) = Aura.newGetResponse r := rfl
    unfold Aura.GetInstance
    rw [hsc, hst, hng]
    by_cases h : r.statusCode < 200 ∨ 300 ≤ r.statusCode
    · rw [if_pos h, if_pos h, newAuraError_strip]
    · rw [if_neg h, if_neg h]
      cases Aura.newGetResponse r <;> simp [newAuraError_strip]
  · have hnc : Aura.newCreateResponse (stripDepHeader r) = Aura.newCreateResponse r := rfl
    unfold Aura.CreateInstance
    rw [hsc, hst, hnc]
    by_cases h : r.statusCode < 200 ∨ 300 ≤ r.statusCode
    · rw [if_pos h, if_pos h, newAuraError_strip]
    · rw [if_neg h, if_neg h]
      cases Aura.newCreateResponse r <;> simp [newAuraError_strip]
  · unfold Aura.DestroyInstance
    rw [hsc, hst]
    by_cases h : r.statusCode = 404 ∨ (200 ≤ r.statusCode ∧ r.statusCode < 300)
    · rw [if_pos h, if_pos h]
    · rw [if_neg h, if_neg h, newAuraError_strip]
  · unfold Aura.PauseInstance
    rw [hsc, hst]
    by_cases h : 200 ≤ r.statusCode ∧ r.statusCode < 300
    · rw [if_pos h, if_pos h]
    · rw [if_neg h, if_neg h, newAuraError_strip]

/-! ### C10 — result/error exclusivity and full population -/

/-- C10: `CreateInstance` and `GetInstance` return no descriptor exactly
when they return an error; when the error is nil the descriptor exists,
comes from a successful decode, and every one of its fields equals the
corresponding string of the `data` object. -/
theorem result_error_exclusivity (r : HttpResponse) :
    ((Aura.GetInstance r).1 = none ↔ (Aura.GetInstance r).2.isSome) ∧
    ((Aura.CreateInstance r).1 = none ↔ (Aura.CreateInstance r).2.isSome) ∧
    (∀ g, (Aura.GetInstance r).1 = some g →
      (Aura.GetInstance r).2 = none ∧ Aura.newGetResponse r = Except.ok g) ∧
    (∀ cr, (Aura.CreateInstance r).1 = some cr →
      (Aura.CreateInstance r).2 = none ∧ Aura.newCreateResponse r = Except.ok cr) ∧
    (∀ g m, (Aura.GetInstance r).1 = some g →
      Aura.unmarshalResponse r = Except.ok (Json.obj m) →
      mapGet m "id" = some (Json.str g.ID) ∧
      mapGet m "name" = some (Json.str g.Name) ∧
      mapGet m "status" = some (Json.str g.Status) ∧
      mapGet m "tenant_id" = some (Json.str g.TenantID) ∧
      mapGet m "cloud_provider" = some (Json.str g.CloudProvider) ∧
      mapGet m "connection_url" = some (Json.str g.ConnectionURL) ∧
      mapGet m "region" = some (Json.str g.Region) ∧
      mapGet m "type" = some (Json.str g.InstanceType) ∧
      mapGet m "memory" = some (Json.str g.Memory) ∧
      mapGet m "storage" = some (Json.str g.Storage)) ∧
    (∀ cr m, (Aura.CreateInstance r).1 = some cr →
      Aura.unmarshalResponse r = Except.ok (Json.obj m) →
      mapGet m "id" = some (Json.str cr.ID) ∧
      mapGet m "connection_url" = some (Json.str cr.ConnectionURL) ∧
      mapGet m "username" = some (Json.str cr.Username) ∧
      mapGet m "password" = some (Json.str cr.Password) ∧
      mapGet m "name" = some (Json.str cr.Name) ∧
      mapGet m "tenant_id" = some (Json.str cr.TenantID) ∧
      mapGet m "cloud_provider" = some (Json.str cr.CloudProvider) ∧
      mapGet m "region" = some (Json.str cr.Region) ∧
      mapGet m "type" = some (Json.str cr.InstanceType)) := by
  have hget : ∀ g, (Aura.GetInstance r).1 = some g →
      (Aura.GetInstance r).2 = none ∧ Aura.newGetResponse r = Except.ok g := by
    intro g hg
    unfold Aura.GetInstance at hg ⊢
    by_cases h : r.statusCode < 200 ∨ 300 ≤ r.statusCode
    · rw [if_pos h] at hg
      exact absurd hg (by simp)
    · rw [if_neg h] at hg
      rw [if_neg h]
      cases heq : Aura.newGetResponse r with
      | error e =>
        rw [heq] at hg
        exact absurd hg (by simp)
      | ok g2 =>
        rw [heq] at hg
        have hg2 : g2 = g := by simpa using hg
        subst hg2
        exact ⟨rfl, rfl⟩
  have hcreate : ∀ cr, (Aura.CreateInstance r).1 = some cr →
      (Aura.CreateInstance r).2 = none ∧ Aura.newCreateResponse r = Except.ok cr := by
    intro cr hg
    unfold Aura.CreateInstance at hg ⊢
    by_cases h : r.statusCode < 200 ∨ 300 ≤ r.statusCode
    · rw [if_pos h] at hg
      exact absurd hg (by simp)
    · rw [if_neg h] at hg
      rw [if_neg h]
      cases heq : Aura.newCreateResponse r with
      | error e =>
        rw [heq] at hg
        exact absurd hg (by simp)
      | ok c2 =>
        rw [heq] at hg
        have hg2 : c2 = cr := by simpa using hg
        subst hg2
        exact ⟨rfl, rfl⟩
  refine ⟨?_, ?_, hget, hcreate, ?_, ?_⟩
  · unfold Aura.GetInstance
    split
    · simp
    · cases Aura.newGetResponse r <;> simp
  · unfold Aura.CreateInstance
    split
    · simp
    · cases Aura.newCreateResponse r <;> simp
  · intro g m hg hm
    have hok := (hget g hg).2
    unfold Aura.newGetResponse at hok
    rw [hm] at hok
    have hf := decodeGetFields_ok hok
    tauto
  · intro cr m hg hm
    have hok := (hcreate cr hg).2
    unfold Aura.newCreateResponse at hok
    rw [hm] at hok
    have hf := decodeCreateFields_ok hok
    tauto

/-- Witness for C10: the mocked get response of the repository's tests
decodes into a fully populated descriptor with no error. -/
theorem result_error_exclusivity_witness :
    (Aura.GetInstance
        ⟨200, "200 OK", [("X-Request-Id", "track-me-123")],
          some (Json.obj [("data", Json.obj
            [("id", Json.str "abc123"), ("name", Json.str "Production"),
             ("status", Json.str "running"), ("tenant_id", Json.str "YOUR_TENANT_ID"),
             ("cloud_provider", Json.str "gcp"),
             ("connection_url", Json.str "YOUR_CONNECTION_URL"),
             ("region", Json.str "europe-west1"), ("type", Json.str "enterprise-db"),
             ("memory", Json.str "8GB"), ("storage", Json.str "16GB")])]), ""⟩).2 = none := by
  have h := (result_error_exclusivity
    ⟨200, "200 OK", [("X-Request-Id", "track-me-123")],
      some (Json.obj [("data", Json.obj
        [("id", Json.str "abc123"), ("name", Json.str "Production"),
         ("status", Json.str "running"), ("tenant_id", Json.str "YOUR_TENANT_ID"),
         ("cloud_provider", Json.str "gcp"),
         ("connection_url", Json.str "YOUR_CONNECTION_URL"),
         ("region", Json.str "europe-west1"), ("type", Json.str "enterprise-db"),
         ("memory", Json.str "8GB"), ("storage", Json.str "16GB")])]), ""⟩).2.2.1
    ⟨"abc123", "Production", "running", "YOUR_TENANT_ID", "gcp", "YOUR_CONNECTION_URL",
      "europe-west1", "enterprise-db", "8GB", "16GB"⟩ (by rfl)
  exact h.1

/-! ### C5 — envelope and field requirements on 2xx responses -/

/-- C5: on a 2xx response, a successful decode requires the body to have
parsed as a string-keyed map with a `data` key; a parsed body without
`data` yields the envelope decode error; with the earlier-checked fields
string-valued, a missing or non-string `status` yields the decode error
naming `status`; and `GetInstance` against the tests' mocked 2xx body with
the `status` key removed returns that error, carrying the correlation id. -/
theorem decode_envelope_and_fields :
    (∀ (r : HttpResponse) (g : GetResponse), 200 ≤ r.statusCode → r.statusCode < 300 →
      Aura.newGetResponse r = Except.ok g →
      ∃ m, Aura.responseBodyToMap r = Except.ok m ∧ ∃ d, mapGet m "data" = some d) ∧
    (∀ (r : HttpResponse) (m : List (String × Json)),
      Aura.responseBodyToMap r = Except.ok m → mapGet m "data" = none →
      Aura.newGetResponse r = Except.error "expected response to contain key \"data\".") ∧
    (∀ m : List (String × Json),
      (∃ s, mapGet m "id" = some (Json.str s)) →
      (∃ s, mapGet m "connection_url" = some (Json.str s)) →
      (∃ s, mapGet m "name" = some (Json.str s)) →
      (∃ s, mapGet m "tenant_id" = some (Json.str s)) →
      (∃ s, mapGet m "cloud_provider" = some (Json.str s)) →
      (∃ s, mapGet m "region" = some (Json.str s)) →
      (∃ s, mapGet m "type" = some (Json.str s)) →
      (∀ s, mapGet m "status" ≠ some (Json.str s)) →
      decodeGetFields m =
        Except.error "response missing key \"status\" or value not string") ∧
    ((Aura.GetInstance
        ⟨200, "200 OK", [("X-Request-Id", "track-me-123")],
          some (Json.obj [("data", Json.obj
            [("id", Json.str "abc123"), ("name", Json.str "Production"),
             ("tenant_id", Json.str "YOUR_TENANT_ID"),
             ("cloud_provider", Json.str "gcp"),
             ("connection_url", Json.str "YOUR_CONNECTION_URL"),
             ("region", Json.str "europe-west1"), ("type", Json.str "enterprise-db"),
             ("memory", Json.str "8GB"), ("storage", Json.str "16GB")])]), ""⟩).2.map
        (fun e => (e.requestID, e.errMsg)) =
      some ("track-me-123", "response missing key \"status\" or value not string")) := by
  refine ⟨?_, ?_, ?_, by rfl⟩
  · intro r g h2 h3 hok
    unfold Aura.newGetResponse Aura.unmarshalResponse at hok
    cases hm : Aura.responseBodyToMap r with
    | error e =>
      rw [hm] at hok
      exact absurd hok (by simp)
    | ok m =>
      rw [hm] at hok
      dsimp only at hok
      refine ⟨m, rfl, ?_⟩
      cases hd : mapGet m "data" with
      | none =>
        rw [hd] at hok
        exact absurd hok (by simp)
      | some d => exact ⟨d, rfl⟩
  · intro r m hm hd
    unfold Aura.newGetResponse Aura.unmarshalResponse
    rw [hm]
    dsimp only
    rw [hd]
  · intro m h1 h2 h3 h4 h5 h6 h7 hst
    obtain ⟨s1, e1⟩ := h1
    obtain ⟨s2, e2⟩ := h2
    obtain ⟨s3, e3⟩ := h3
    obtain ⟨s4, e4⟩ := h4
    obtain ⟨s5, e5⟩ := h5
    obtain ⟨s6, e6⟩ := h6
    obtain ⟨s7, e7⟩ := h7
    have r1 : requireString m "id" "response missing key \"id\" or value not string" =
      Except.ok s1 := by simp [requireString, e1]
    have r2 : requireString m "connection_url"
        "response missing key \"connection_url\" or value not string" =
      Except.ok s2 := by simp [requireString, e2]
    have r3 : requireString m "name" "response missing key \"name\" or value not string" =
      Except.ok s3 := by simp [requireString, e3]
    have r4 : requireString m "tenant_id"
        "response missing key \"tenant_id\" or value not string" =
      Except.ok s4 := by simp [requireString, e4]
    have r5 : requireString m "cloud_provider"
        "response missing key \"cloud_provider\" or value not string" =
      Except.ok s5 := by simp [requireString, e5]
    have r6 : requireString m "region" "response missing key \"region\" or value not string" =
      Except.ok s6 := by simp [requireString, e6]
    have r7 : requireString m "type" "response missing key \"type\" or value not string" =
      Except.ok s7 := by simp [requireString, e7]
    have rst := requireString_nostr
      "response missing key \"status\" or value not string" hst
    simp [decodeGetFields, r1, r2, r3, r4, r5, r6, r7, rst, Bind.bind, Except.bind]

/-- Witness for C5: a parsed 2xx body without the `data` envelope key. -/
theorem decode_envelope_and_fields_witness :
    Aura.newGetResponse ⟨200, "200 OK", [], some (Json.obj [("foo", Json.str "bar")]), "x"⟩ =
      Except.error "expected response to contain key \"data\"." := by
  exact decode_envelope_and_fields.2.1
    ⟨200, "200 OK", [], some (Json.obj [("foo", Json.str "bar")]), "x"⟩
    [("foo", Json.str "bar")] (by rfl) (by rfl)

/-! ### C7 — decode/re-encode round trip -/

/-- Follows the spec's words (§8, "decoding then re-encoding core fields
round-trips exactly"): re-encode a decoded create descriptor's fields back
into the envelope's `data` object, one entry per wire key. -/
def specEncodeCreate (c : CreateResponse) : List (String × Json) :=
  [("id", Json.str c.ID), ("connection_url", Json.str c.ConnectionURL),
   ("username", Json.str c.Username), ("password", Json.str c.Password),
   ("name", Json.str c.Name), ("tenant_id", Json.str c.TenantID),
   ("cloud_provider", Json.str c.CloudProvider), ("region", Json.str c.Region),
   ("type", Json.str c.InstanceType)]

/-- Follows the spec's words (§8, "decoding then re-encoding core fields
round-trips exactly"): re-encode a decoded get descriptor's fields back
into the envelope's `data` object, one entry per wire key. -/
def specEncodeGet (g : GetResponse) : List (String × Json) :=
  [("id", Json.str g.ID), ("name", Json.str g.Name), ("status", Json.str g.Status),
   ("tenant_id", Json.str g.TenantID), ("cloud_provider", Json.str g.CloudProvider),
   ("connection_url", Json.str g.ConnectionURL), ("region", Json.str g.Region),
   ("type", Json.str g.InstanceType), ("memory", Json.str g.Memory),
   ("storage", Json.str g.Storage)]

/-- C7: a successfully decoded create or get descriptor carries each `data`
string verbatim, so re-encoding the core fields agrees with the original
`data` object on every wire key of the respective envelope; and
`CreateInstance` against the tests' mocked envelope with name `"foo"`
yields a descriptor whose `Name` is `"foo"`. -/
theorem create_decode_roundtrip :
    (∀ (r : HttpResponse) (m : List (String × Json)) (cr : CreateResponse),
      Aura.unmarshalResponse r = Except.ok (Json.obj m) →
      Aura.newCreateResponse r = Except.ok cr →
      mapGet (specEncodeCreate cr) "id" = mapGet m "id" ∧
      mapGet (specEncodeCreate cr) "connection_url" = mapGet m "connection_url" ∧
      mapGet (specEncodeCreate cr) "username" = mapGet m "username" ∧
      mapGet (specEncodeCreate cr) "password" = mapGet m "password" ∧
      mapGet (specEncodeCreate cr) "name" = mapGet m "name" ∧
      mapGet (specEncodeCreate cr) "tenant_id" = mapGet m "tenant_id" ∧
      mapGet (specEncodeCreate cr) "cloud_provider" = mapGet m "cloud_provider" ∧
      mapGet (specEncodeCreate cr) "region" = mapGet m "region" ∧
      mapGet (specEncodeCreate cr) "type" = mapGet m "type") ∧
    (∀ (r : HttpResponse) (m : List (String × Json)) (g : GetResponse),
      Aura.unmarshalResponse r = Except.ok (Json.obj m) →
      Aura.newGetResponse r = Except.ok g →
      mapGet (specEncodeGet g) "id" = mapGet m "id" ∧
      mapGet (specEncodeGet g) "name" = mapGet m "name" ∧
      mapGet (specEncodeGet g) "status" = mapGet m "status" ∧
      mapGet (specEncodeGet g) "tenant_id" = mapGet m "tenant_id" ∧
      mapGet (specEncodeGet g) "cloud_provider" = mapGet m "cloud_provider" ∧
      mapGet (specEncodeGet g) "connection_url" = mapGet m "connection_url" ∧
      mapGet (specEncodeGet g) "region" = mapGet m "region" ∧
      mapGet (specEncodeGet g) "type" = mapGet m "type" ∧
      mapGet (specEncodeGet g) "memory" = mapGet m "memory" ∧
      mapGet (specEncodeGet g) "storage" = mapGet m "storage") ∧
    (Aura.CreateInstance
        ⟨200, "200 OK", [("X-Request-Id", "track-me-123")],
          some (Json.obj [("data", Json.obj
            [("id", Json.str "db1d1234"),
             ("connection_url", Json.str "YOUR_CONNECTION_URL"),
             ("username", Json.str "neo4j"), ("password", Json.str "letMeIn123!"),
             ("tenant_id", Json.str "YOUR_TENANT_ID"),
             ("cloud_provider", Json.str "gcp"), ("region", Json.str "europe-west1"),
             ("type", Json.str "enterprise-db"), ("name", Json.str "foo")])]), ""⟩ =
      (some ⟨"db1d1234", "YOUR_CONNECTION_URL", "neo4j", "letMeIn123!", "foo",
        "YOUR_TENANT_ID", "gcp", "europe-west1", "enterprise-db"⟩, none) ∧
    (⟨"db1d1234", "YOUR_CONNECTION_URL", "neo4j", "letMeIn123!", "foo",
        "YOUR_TENANT_ID", "gcp", "europe-west1", "enterprise-db"⟩ : CreateResponse).Name
      = "foo") := by
  refine ⟨?_, ?_, by rfl, rfl⟩
  · intro r m cr hm hok
    unfold Aura.newCreateResponse at hok
    rw [hm] at hok
    obtain ⟨f1, f2, f3, f4, f5, f6, f7, f8, f9⟩ := decodeCreateFields_ok hok
    have g1 : mapGet (specEncodeCreate cr) "id" = some (Json.str cr.ID) := rfl
    have g2 : mapGet (specEncodeCreate cr) "connection_url" =
      some (Json.str cr.ConnectionURL) := rfl
    have g3 : mapGet (specEncodeCreate cr) "username" = some (Json.str cr.Username) := rfl
    have g4 : mapGet (specEncodeCreate cr) "password" = some (Json.str cr.Password) := rfl
    have g5 : mapGet (specEncodeCreate cr) "name" = some (Json.str cr.Name) := rfl
    have g6 : mapGet (specEncodeCreate cr) "tenant_id" = some (Json.str cr.TenantID) := rfl
    have g7 : mapGet (specEncodeCreate cr) "cloud_provider" =
      some (Json.str cr.CloudProvider) := rfl
    have g8 : mapGet (specEncodeCreate cr) "region" = some (Json.str cr.Region) := rfl
    have g9 : mapGet (specEncodeCreate cr) "type" = some (Json.str cr.InstanceType) := rfl
    exact ⟨g1.trans f1.symm, g2.trans f2.symm, g3.trans f3.symm, g4.trans f4.symm,
      g5.trans f5.symm, g6.trans f6.symm, g7.trans f7.symm, g8.trans f8.symm,
      g9.trans f9.symm⟩
  · intro r m g hm hok
    unfold Aura.newGetResponse at hok
    rw [hm] at hok
    obtain ⟨f1, f2, f3, f4, f5, f6, f7, f8, f9, f10⟩ := decodeGetFields_ok hok
    have g1 : mapGet (specEncodeGet g) "id" = some (Json.str g.ID) := rfl
    have g2 : mapGet (specEncodeGet g) "name" = some (Json.str g.Name) := rfl
    have g3 : mapGet (specEncodeGet g) "status" = some (Json.str g.Status) := rfl
    have g4 : mapGet (specEncodeGet g) "tenant_id" = some (Json.str g.TenantID) := rfl
    have g5 : mapGet (specEncodeGet g) "cloud_provider" =
      some (Json.str g.CloudProvider) := rfl
    have g6 : mapGet (specEncodeGet g) "connection_url" =
      some (Json.str g.ConnectionURL) := rfl
    have g7 : mapGet (specEncodeGet g) "region" = some (Json.str g.Region) := rfl
    have g8 : mapGet (specEncodeGet g) "type" = some (Json.str g.InstanceType) := rfl
    have g9 : mapGet (specEncodeGet g) "memory" = some (Json.str g.Memory) := rfl
    have g10 : mapGet (specEncodeGet g) "storage" = some (Json.str g.Storage) := rfl
    exact ⟨g1.trans f1.symm, g2.trans f3.symm, g3.trans f8.symm, g4.trans f4.symm,
      g5.trans f5.symm, g6.trans f2.symm, g7.trans f6.symm, g8.trans f7.symm,
      g9.trans f9.symm, g10.trans f10.symm⟩

/-- Witness for C7: the round-trip equations instantiated at the tests'
mocked create envelope. -/
theorem create_decode_roundtrip_witness :
    mapGet (specEncodeCreate ⟨"db1d1234", "YOUR_CONNECTION_URL", "neo4j", "letMeIn123!",
        "foo", "YOUR_TENANT_ID", "gcp", "europe-west1", "enterprise-db"⟩) "name" =
      mapGet [("id", Json.str "db1d1234"),
        ("connection_url", Json.str "YOUR_CONNECTION_URL"),
        ("username", Json.str "neo4j"), ("password", Json.str "letMeIn123!"),
        ("tenant_id", Json.str "YOUR_TENANT_ID"),
        ("cloud_provider", Json.str "gcp"), ("region", Json.str "europe-west1"),
        ("type", Json.str "enterprise-db"), ("name", Json.str "foo")] "name" := by
  have h := create_decode_roundtrip.1
    ⟨200, "200 OK", [("X-Request-Id", "track-me-123")],
      some (Json.obj [("data", Json.obj
        [("id", Json.str "db1d1234"),
         ("connection_url", Json.str "YOUR_CONNECTION_URL"),
         ("username", Json.str "neo4j"), ("password", Json.str "letMeIn123!"),
         ("tenant_id", Json.str "YOUR_TENANT_ID"),
         ("cloud_provider", Json.str "gcp"), ("region", Json.str "europe-west1"),
         ("type", Json.str "enterprise-db"), ("name", Json.str "foo")])]), ""⟩
    [("id", Json.str "db1d1234"),
     ("connection_url", Json.str "YOUR_CONNECTION_URL"),
     ("username", Json.str "neo4j"), ("password", Json.str "letMeIn123!"),
     ("tenant_id", Json.str "YOUR_TENANT_ID"),
     ("cloud_provider", Json.str "gcp"), ("region", Json.str "europe-west1"),
     ("type", Json.str "enterprise-db"), ("name", Json.str "foo")]
    ⟨"db1d1234", "YOUR_CONNECTION_URL", "neo4j", "letMeIn123!", "foo",
      "YOUR_TENANT_ID", "gcp", "europe-west1", "enterprise-db"⟩ (by rfl) (by rfl)
  exact h.2.2.2.2.1

/-! ### Token cache helpers -/

theorem authenticate_ok {c : AuraO.ClientState} {now : Int} {resp : HttpResponse}
    {m : List (String × Json)} {tok : String} {n : Int}
    (h1 : 200 ≤ resp.statusCode) (h2 : resp.statusCode < 300)
    (hm : AuraO.responseBodyToMap resp = Except.ok m)
    (ht : mapGet m "access_token" = some (Json.str tok))
    (he : mapGet m "expires_in" = some (Json.num n)) :
    AuraO.authenticate c now resp =
      Except.ok { c with accessToken := tok, tokenExpiresAt := now + n } := by
  unfold AuraO.authenticate
  rw [if_neg (by omega), hm]
  dsimp only
  rw [ht]
  dsimp only
  rw [he]

theorem do_noauth (c : AuraO.ClientState) (a : AuraO.DoArgs)
    (htok : c.accessToken ≠ "") (htime : a.now1 ≤ c.tokenExpiresAt)
    (h403 : a.resp1.statusCode ≠ 403) :
    AuraO.Do c a.now1 a.authA a.resp1 a.now2 a.authB a.resp2 a.req =
      ⟨c, Except.ok a.resp1, 0,
        [addHeader a.req "Authorization" ("Bearer " ++ c.accessToken)]⟩ := by
  unfold AuraO.Do AuraO.sign
  rw [if_neg (by push_neg; exact ⟨htok, by omega⟩)]
  dsimp only
  rw [if_neg h403]

/-! ### C2 — token caching -/

/-- Counterexample to C2 as stated: with a held token and the clock exactly
at the stored expiry — "at/after" per the claim — `sign` does not invoke
the token endpoint, because the code tests `time.Now().After(expiry)`,
which is strictly-after. -/
theorem sign_at_expiry_counterexample :
    ¬(((AuraO.sign ⟨"https://api.neo4j.io", "tok", 100, "sec", "cid", "ten"⟩ 100
        ⟨200, "200 OK", [], none, ""⟩ ⟨"GET", "u", [], ""⟩).2 = 1) ↔
      (("tok" : String) = "" ∨ (100 : Int) ≥ 100)) := by
  decide

/-- C2 (amended): `sign` invokes the token endpoint exactly when no token is
held or the clock is strictly after the stored expiry; a successful
authentication stores the token and sets expiry to now plus the response's
`expires_in`; while a token is held and every call instant is at or before
the stored expiry (and no 403 forces invalidation), a sequence of resource
calls makes zero token-endpoint invocations and leaves the state unchanged;
in particular a client constructed with a pre-seeded unexpired token issues
zero auth calls before (and during) its first resource call. -/
theorem token_cache_single_auth :
    (∀ (c : AuraO.ClientState) (now : Int) (authResp : HttpResponse) (req : HttpRequest),
      ((AuraO.sign c now authResp req).2 = 1 ↔
        (c.accessToken = "" ∨ c.tokenExpiresAt < now))) ∧
    (∀ (c : AuraO.ClientState) (now : Int) (resp : HttpResponse)
      (m : List (String × Json)) (tok : String) (n : Int),
      200 ≤ resp.statusCode → resp.statusCode < 300 →
      AuraO.responseBodyToMap resp = Except.ok m →
      mapGet m "access_token" = some (Json.str tok) →
      mapGet m "expires_in" = some (Json.num n) →
      AuraO.authenticate c now resp =
        Except.ok { c with accessToken := tok, tokenExpiresAt := now + n }) ∧
    (∀ (c : AuraO.ClientState) (args : List AuraO.DoArgs),
      c.accessToken ≠ "" →
      (∀ a ∈ args, a.now1 ≤ c.tokenExpiresAt ∧ a.resp1.statusCode ≠ 403) →
      AuraO.runSeq c args = (c, 0)) ∧
    (∀ (now0 : Int) (cid cs tid tok : String) (e : Int) (a : AuraO.DoArgs),
      tok ≠ "" → a.now1 ≤ e → a.resp1.statusCode ≠ 403 →
      (AuraO.runSeq (AuraO.NewClient now0 cid cs tid [AuraO.WithAuthInfo tok e]) [a]).2 = 0) := by
  have hseq : ∀ (args : List AuraO.DoArgs) (c : AuraO.ClientState),
      c.accessToken ≠ "" →
      (∀ a ∈ args, a.now1 ≤ c.tokenExpiresAt ∧ a.resp1.statusCode ≠ 403) →
      AuraO.runSeq c args = (c, 0) := by
    intro args
    induction args with
    | nil => intro c _ _; rfl
    | cons a rest ih =>
      intro c htok hall
      have ha := hall a (List.mem_cons_self a rest)
      unfold AuraO.runSeq
      rw [do_noauth c a htok ha.1 ha.2]
      dsimp only
      rw [ih c htok (fun b hb => hall b (List.mem_cons_of_mem a hb))]
      rfl
  refine ⟨?_, ?_, fun c args h1 h2 => hseq args c h1 h2, ?_⟩
  · intro c now authResp req
    unfold AuraO.sign
    by_cases h : c.accessToken = "" ∨ c.tokenExpiresAt < now
    · rw [if_pos h]
      cases AuraO.authenticate c now authResp <;> simpa
    · rw [if_neg h]
      simpa using h
  · intro c now resp m tok n h1 h2 hm ht he
    exact authenticate_ok h1 h2 hm ht he
  · intro now0 cid cs tid tok e a htok htime h403
    have hc : AuraO.NewClient now0 cid cs tid [AuraO.WithAuthInfo tok e] =
        ⟨"https://api.neo4j.io", tok, e, cs, cid, tid⟩ := rfl
    rw [hc, hseq [a] ⟨"https://api.neo4j.io", tok, e, cs, cid, tid⟩ htok
      (by intro b hb; rw [List.mem_singleton] at hb; subst hb; exact ⟨htime, h403⟩)]

/-- Witness for C2: a pre-seeded unexpired token and one non-403 resource
call — zero token-endpoint invocations. -/
theorem token_cache_single_auth_witness :
    (AuraO.runSeq (AuraO.NewClient 0 "cid" "cs" "ten" [AuraO.WithAuthInfo "tok" 100])
      [⟨0, ⟨200, "200 OK", [], none, ""⟩, ⟨200, "200 OK", [], none, ""⟩, 0,
        ⟨200, "200 OK", [], none, ""⟩, ⟨200, "200 OK", [], none, ""⟩,
        ⟨"GET", "u", [], ""⟩⟩]).2 = 0 := by
  exact token_cache_single_auth.2.2.2 0 "cid" "cs" "ten" "tok" 100
    ⟨0, ⟨200, "200 OK", [], none, ""⟩, ⟨200, "200 OK", [], none, ""⟩, 0,
      ⟨200, "200 OK", [], none, ""⟩, ⟨200, "200 OK", [], none, ""⟩,
      ⟨"GET", "u", [], ""⟩⟩ (by decide) (by decide) (by decide)

/-! ### C3 — one-shot re-authentication on 403 -/

/-- C3: when a signed resource call gets a 403 answer, `Do` clears the
cached token, invokes the token endpoint exactly once more (given a
well-formed token response), re-sends that single request exactly once
(two transport sends in total), stores the fresh token, and returns the
second answer as is; a second consecutive 403 is therefore handed to the
facade, whose status check turns it into an error, with no further
re-authentication. -/
theorem reauth_once_on_403 (c : AuraO.ClientState) (now1 now2 : Int)
    (authA authB resp1 resp2 : HttpResponse) (req : HttpRequest)
    (p : AuraO.ClientState × HttpRequest) (m : List (String × Json)) (tok : String) (n : Int)
    (hs : (AuraO.sign c now1 authA req).1 = Except.ok p)
    (h403 : resp1.statusCode = 403)
    (hlo : 200 ≤ authB.statusCode) (hhi : authB.statusCode < 300)
    (hm : AuraO.responseBodyToMap authB = Except.ok m)
    (ht : mapGet m "access_token" = some (Json.str tok))
    (he : mapGet m "expires_in" = some (Json.num n)) :
    (AuraO.Do c now1 authA resp1 now2 authB resp2 req).sent.length = 2 ∧
    (AuraO.Do c now1 authA resp1 now2 authB resp2 req).authCalls =
      (AuraO.sign c now1 authA req).2 + 1 ∧
    (AuraO.Do c now1 authA resp1 now2 authB resp2 req).result = Except.ok resp2 ∧
    (AuraO.Do c now1 authA resp1 now2 authB resp2 req).state.accessToken = tok ∧
    (resp2.statusCode = 403 →
      AuraO.GetInstanceFromResp resp2 = Except.error resp2.status) := by
  obtain ⟨c1, req1⟩ := p
  have hpair : AuraO.sign c now1 authA req =
      (Except.ok (c1, req1), (AuraO.sign c now1 authA req).2) := by
    rw [← hs]
  have hauth := @authenticate_ok { c1 with accessToken := "" } now2 authB m tok n
    hlo hhi hm ht he
  have hsign2 : AuraO.sign { c1 with accessToken := "" } now2 authB req1 =
      (Except.ok ({ { c1 with accessToken := "" } with
          accessToken := tok, tokenExpiresAt := now2 + n },
        addHeader req1 "Authorization" ("Bearer " ++ tok)), 1) := by
    unfold AuraO.sign
    rw [if_pos (Or.inl rfl), hauth]
  have hdo : AuraO.Do c now1 authA resp1 now2 authB resp2 req =
      ⟨{ { c1 with accessToken := "" } with
          accessToken := tok, tokenExpiresAt := now2 + n },
        Except.ok resp2, (AuraO.sign c now1 authA req).2 + 1,
        [req1, addHeader req1 "Authorization" ("Bearer " ++ tok)]⟩ := by
    unfold AuraO.Do
    rw [hpair]
    dsimp only
    rw [if_pos h403, hsign2]
  refine ⟨by rw [hdo]; try rfl, by rw [hdo]; try rfl, by rw [hdo]; try rfl,
    by rw [hdo]; try rfl, ?_⟩
  intro h2
  unfold AuraO.GetInstanceFromResp
  rw [if_pos (by omega)]

/-- Witness for C3: a valid-token call answered 403, then a fresh token and
a second 403 — two sends, one re-authentication. -/
theorem reauth_once_on_403_witness :
    (AuraO.Do ⟨"ep", "old", 1000, "sec", "cid", "ten"⟩ 0
        ⟨200, "200 OK", [], none, ""⟩ ⟨403, "403 Forbidden", [], none, ""⟩ 0
        ⟨200, "200 OK", [],
          some (Json.obj [("access_token", Json.str "new"), ("expires_in", Json.num 3600)]),
          "\x7b\"access_token\": \"new\", \"expires_in\": 3600\x7d"⟩
        ⟨403, "403 Forbidden", [], none, ""⟩
        ⟨"GET", "ep/v1/instances/i1", [], ""⟩).sent.length = 2 := by
  have h := reauth_once_on_403 ⟨"ep", "old", 1000, "sec", "cid", "ten"⟩ 0 0
    ⟨200, "200 OK", [], none, ""⟩
    ⟨200, "200 OK", [],
      some (Json.obj [("access_token", Json.str "new"), ("expires_in", Json.num 3600)]),
      "\x7b\"access_token\": \"new\", \"expires_in\": 3600\x7d"⟩
    ⟨403, "403 Forbidden", [], none, ""⟩ ⟨403, "403 Forbidden", [], none, ""⟩
    ⟨"GET", "ep/v1/instances/i1", [], ""⟩
    (⟨"ep", "old", 1000, "sec", "cid", "ten"⟩,
      ⟨"GET", "ep/v1/instances/i1", [("Authorization", "Bearer old")], ""⟩)
    [("access_token", Json.str "new"), ("expires_in", Json.num 3600)] "new" 3600
    (by rfl) (by rfl) (by decide) (by decide) (by rfl) (by rfl) (by rfl)
  exact h.1

/-! ### C9 — Authorization header on the retried request -/

/-- C9: the request re-sent after the one-shot re-authentication carries
two `Authorization` headers — the stale bearer token first, then the fresh
one — because `sign` uses `Header.Add` on the same request object.  The
first send carried only the stale header. -/
theorem stale_auth_header_on_retry :
    ((AuraO.Do ⟨"ep", "old", 1000, "sec", "cid", "ten"⟩ 0
        ⟨200, "200 OK", [], none, ""⟩ ⟨403, "403 Forbidden", [], none, ""⟩ 0
        ⟨200, "200 OK", [],
          some (Json.obj [("access_token", Json.str "new"), ("expires_in", Json.num 3600)]),
          "\x7b\"access_token\": \"new\", \"expires_in\": 3600\x7d"⟩
        ⟨200, "200 OK", [], none, "ok"⟩
        ⟨"GET", "ep/v1/instances/i1", [], ""⟩).sent.map
      (fun q => headerValues q.headers "Authorization")) =
    [["Bearer old"], ["Bearer old", "Bearer new"]] := by
  decide

/-! ### C1 — retry budget -/

theorem execute_all500 (resps : Nat → HttpResponse) (h : ∀ j, (resps j).statusCode = 500) :
    ∀ (b i : Nat), RetrySpec.execute resps i b =
      (Except.error ⟨(resps (i + b)).status, (resps (i + b)).bodyText, i + b + 1⟩,
        i + b + 1) := by
  intro b
  induction b with
  | zero =>
    intro i
    unfold RetrySpec.execute
    rw [if_pos (by simp [RetrySpec.retryable, h i])]
    simp
  | succ b ih =>
    intro i
    unfold RetrySpec.execute
    rw [if_pos (by simp [RetrySpec.retryable, h i])]
    rw [ih (i + 1)]
    have hi : i + 1 + b = i + (b + 1) := by omega
    rw [hi]

/-- C1: with retry budget `N` set via `WithRetries` and every attempt
answered 500, the retry loop makes exactly `N + 1` attempts and fails with
the give-up error; with a 501 first answer it makes exactly 1 attempt and
returns that response, regardless of `N`; and with the default budget of 0
(no `WithRetries` option) a 500 answer produces exactly 1 attempt before
failing. -/
theorem retry_budget_respected :
    (∀ (N : Nat) (resps : Nat → HttpResponse),
      (∀ j, (resps j).statusCode = 500) →
      (RetrySpec.execute resps 0
        ((Aura.NewClient "ten" [Aura.WithRetries (Int.ofNat N)]).retries.toNat)).2 = N + 1 ∧
      (RetrySpec.execute resps 0
        ((Aura.NewClient "ten" [Aura.WithRetries (Int.ofNat N)]).retries.toNat)).1 =
        Except.error ⟨(resps N).status, (resps N).bodyText, N + 1⟩) ∧
    (∀ (N : Nat) (resps : Nat → HttpResponse),
      (resps 0).statusCode = 501 →
      (RetrySpec.execute resps 0
        ((Aura.NewClient "ten" [Aura.WithRetries (Int.ofNat N)]).retries.toNat)).2 = 1 ∧
      (RetrySpec.execute resps 0
        ((Aura.NewClient "ten" [Aura.WithRetries (Int.ofNat N)]).retries.toNat)).1 =
        Except.ok (resps 0)) ∧
    (∀ resps : Nat → HttpResponse,
      (resps 0).statusCode = 500 →
      (RetrySpec.execute resps 0 ((Aura.NewClient "ten" []).retries.toNat)).2 = 1 ∧
      (RetrySpec.execute resps 0 ((Aura.NewClient "ten" []).retries.toNat)).1 =
        Except.error ⟨(resps 0).status, (resps 0).bodyText, 1⟩) := by
  have hbudget : ∀ N : Nat,
      (Aura.NewClient "ten" [Aura.WithRetries (Int.ofNat N)]).retries.toNat = N := by
    intro N
    simp [Aura.NewClient, Aura.WithRetries]
  refine ⟨?_, ?_, ?_⟩
  · intro N resps hall
    rw [hbudget N, execute_all500 resps hall N 0]
    constructor <;> simp
  · intro N resps h501
    rw [hbudget N]
    have hnr : RetrySpec.retryable (resps 0).statusCode = false := by
      simp [RetrySpec.retryable, h501]
    cases N with
    | zero =>
      unfold RetrySpec.execute
      rw [if_neg (by simp [hnr])]
      exact ⟨rfl, rfl⟩
    | succ b =>
      unfold RetrySpec.execute
      rw [if_neg (by simp [hnr])]
      exact ⟨rfl, rfl⟩
  · intro resps h500
    have hbudget0 : (Aura.NewClient "ten" []).retries.toNat = 0 := rfl
    rw [hbudget0]
    unfold RetrySpec.execute
    rw [if_pos (by simp [RetrySpec.retryable, h500])]
    exact ⟨rfl, rfl⟩

/-- Witness for C1: budget 2 and a constant-500 transport — three attempts,
then the give-up error. -/
theorem retry_budget_respected_witness :
    (RetrySpec.execute
      (fun _ => ⟨500, "500 Internal Server Error", [], none, "500 not working"⟩) 0
      ((Aura.NewClient "ten" [Aura.WithRetries (Int.ofNat 2)]).retries.toNat)).2 = 3 := by
  exact (retry_budget_respected.1 2
    (fun _ => ⟨500, "500 Internal Server Error", [], none, "500 not working"⟩)
    (fun _ => rfl)).1
